import Mathlib

/-!
Shallow embedding of the NARUU core (backend/naruu_core) in Lean 4, together
with proofs of the behavioural claims about it.

Conventions of the embedding:
* Python dicts become association lists with insertion-order-preserving update.
* Async effects are sequentialized; external behaviour (a handler body, a
  plugin body, the outbound HTTP call of the script generator) is passed in
  as an explicit outcome oracle, so that the surrounding control flow is the
  part being modelled.
* Monetary amounts (floats in the source) are modelled as exact rationals,
  with round-half-to-even decimal rounding mirroring the round builtin.
* Timestamps (wall-clock fields) are omitted: no claim observes them.
-/

namespace Naruu

/-! ### Generic helpers: Python dict and slice semantics -/

/-- Lookup in an association list, mirroring dict.get returning None when
the key is absent. -/
def dictGet {α : Type} (d : List (String × α)) (k : String) : Option α :=
  match d.find? (fun p => p.1 == k) with
  | some p => some p.2
  | none => none

/-- Dict assignment: an existing key keeps its position, a new key is
appended, mirroring insertion-ordered Python dicts. -/
def dictSet {α : Type} (d : List (String × α)) (k : String) (v : α) :
    List (String × α) :=
  if (d.find? (fun p => p.1 == k)).isSome then
    d.map (fun p => if p.1 == k then (k, v) else p)
  else
    d ++ [(k, v)]

/-- Python slice l[start:] with a possibly negative start index. -/
def pySliceFrom {α : Type} (l : List α) (start : Int) : List α :=
  if start < 0 then l.drop (Int.toNat ((l.length : Int) + start))
  else l.drop (Int.toNat start)

/-- Python substring containment needle in hay (on the character list). -/
def strContainsSub (hay needle : String) : Bool :=
  (List.range (hay.length + 1)).any (fun i => needle.data.isPrefixOf (hay.data.drop i))

/-- Python str.lower modelled as per-code-point lowering (identical on
the ASCII range the routing texts use). -/
def strToLower (s : String) : String := String.mk (s.data.map Char.toLower)

/-- Python str.split with no argument: split on whitespace runs,
discarding empty fragments; cur is the reversed current fragment. -/
def splitWords : List Char → List Char → List String
  | [], cur => if cur.isEmpty then [] else [String.mk cur.reverse]
  | ch :: rest, cur =>
      if ch.isWhitespace then
        (if cur.isEmpty then splitWords rest [] else
          String.mk cur.reverse :: splitWords rest [])
      else splitWords rest (ch :: cur)

/-! ### Event bus (naruu_core/event_bus.py) -/

/-- Event record: event_type, data mapping, source. The timestamp field of
the source dataclass is wall-clock time and is omitted. -/
structure Event where
  event_type : String
  data : List (String × String)
  source : String
deriving Repr, DecidableEq

/-- A subscribed handler: its qualified name plus its behaviour on a given
event, an oracle standing for running the handler coroutine: ok for normal
completion, error for a raised exception (carrying str of the exception). -/
structure Handler where
  qualname : String
  behavior : Event → Except String Unit

/-- One element of the list returned by publish. -/
structure PublishOutcome where
  handler : String
  status : String
  error : Option String
deriving Repr, DecidableEq

/-- EventBus state: the per-type handler table and the bounded history. -/
structure EventBusState where
  handlers : List (String × List Handler)
  history : List Event
  max_history : Nat

/-- Handler list for one event type (defaultdict read without insertion,
as in self._handlers.get(event_type, [])). -/
def lookupHandlers (hs : List (String × List Handler)) (ty : String) :
    List Handler :=
  match hs.find? (fun p => p.1 == ty) with
  | some p => p.2
  | none => []

/-- EventBus._record: append to history, then keep only the last
max_history events. -/
def EventBus.record (st : EventBusState) (e : Event) : EventBusState :=
  let h := st.history ++ [e]
  { st with
    history := if h.length > st.max_history then h.drop (h.length - st.max_history) else h }

/-- Outcome dict built by publish for one handler: gather with
return_exceptions yields either the handler result or the exception, and
publish turns it into a status ok / status error record. -/
def safeOutcome (h : Handler) (e : Event) : PublishOutcome :=
  match h.behavior e with
  | .ok _ => { handler := h.qualname, status := "ok", error := none }
  | .error msg => { handler := h.qualname, status := "error", error := some msg }

/-- EventBus.publish: record the event, then produce one outcome per
subscribed handler (empty list when there are no subscribers). -/
def EventBus.publish (st : EventBusState) (e : Event) :
    EventBusState × List PublishOutcome :=
  let st1 := EventBus.record st e
  let hs := lookupHandlers st1.handlers e.event_type
  if hs.isEmpty then (st1, [])
  else (st1, hs.map (fun h => safeOutcome h e))

/-- EventBus.get_history: the slice self._history[-limit:]. -/
def EventBus.get_history (st : EventBusState) (limit : Int) : List Event :=
  pySliceFrom st.history (-limit)

/-! ### Plugin contract (naruu_core/plugins/base.py) -/

/-- Plugin lifecycle status. -/
inductive PluginStatus where
  | registered
  | initialized
  | running
  | error
  | shutdown
deriving Repr, DecidableEq

/-- Plugin metadata snapshot. -/
structure PluginInfo where
  name : String
  version : String
  description : String
  capabilities : List String
  status : PluginStatus
deriving Repr, DecidableEq

/-- Payloads and result mappings (dict[str, Any] at the dispatch boundary)
are modelled as string-to-string association lists. -/
abbrev Payload := List (String × String)

/-- A concrete plugin: its metadata plus behaviour oracles for the two
fallible operations. initBehavior models awaiting plugin initialization on
a config (error = raised exception), execBehavior models awaiting the
plugin execute on a command and payload. -/
structure NaruuPlugin where
  name : String
  version : String
  description : String
  capabilities : List String
  initBehavior : Payload → Except String Unit
  execBehavior : String → Payload → Except String Payload

/-- NaruuPlugin.info: metadata with the default REGISTERED status. -/
def NaruuPlugin.info (p : NaruuPlugin) : PluginInfo :=
  { name := p.name
    version := p.version
    description := p.description
    capabilities := p.capabilities
    status := .registered }

/-! ### Plugin manager (naruu_core/plugin_manager.py) -/

/-- The distinct PluginError raise sites, one constructor per site, each
carrying the data its message interpolates. -/
inductive PluginErr where
  | duplicateName (name : String)
  | notFound (name : String)
  | unsupportedCommand (plugin command : String) (available : List String)
  | initializationFailure (plugin cause : String)
  | executionFailure (plugin command cause : String)
deriving Repr, DecidableEq

/-- Rendering of the PluginError messages of the source; the available
capability list is enumerated in the unsupported-command message. -/
def errMessage : PluginErr → String
  | .duplicateName n => "플러그인 " ++ n ++ " 은(는) 이미 등록되어 있습니다"
  | .notFound n => "플러그인 " ++ n ++ " 을(를) 찾을 수 없습니다"
  | .unsupportedCommand n c caps =>
      "플러그인 " ++ n ++ " 은(는) " ++ c ++ " 명령을 지원하지 않습니다. 사용 가능: " ++
        String.intercalate (", ") caps
  | .initializationFailure n cause => "플러그인 " ++ n ++ " 초기화 실패: " ++ cause
  | .executionFailure n c cause =>
      "플러그인 " ++ n ++ " 명령 " ++ c ++ " 실행 실패: " ++ cause

/-- PluginManager state: the registry dict and the status dict. -/
structure ManagerState where
  plugins : List (String × NaruuPlugin)
  statuses : List (String × PluginStatus)

/-- PluginManager.register. Returns the new state, the list of events
published on the bus, and the outcome. Duplicate name: fail with no
mutation. Otherwise run initBehavior: on success store the plugin, set
INITIALIZED and publish plugin.registered; on failure set ERROR without
storing and fail with the initialization failure wrapping the cause. -/
def PluginManager.register (st : ManagerState) (p : NaruuPlugin)
    (config : Payload) : ManagerState × List Event × Except PluginErr PluginInfo :=
  if (dictGet st.plugins p.name).isSome then
    (st, [], .error (.duplicateName p.name))
  else
    match p.initBehavior config with
    | .ok _ =>
        ({ plugins := dictSet st.plugins p.name p
           statuses := dictSet st.statuses p.name .initialized },
         [{ event_type := "plugin.registered"
            data := [("name", p.name), ("version", p.version)]
            source := "plugin_manager" }],
         .ok p.info)
    | .error cause =>
        ({ st with statuses := dictSet st.statuses p.name .error },
         [],
         .error (.initializationFailure p.name cause))

/-- PluginManager.get. -/
def PluginManager.get (st : ManagerState) (name : String) : Option NaruuPlugin :=
  dictGet st.plugins name

/-- PluginManager.list_plugins: per registered plugin, its info with the
status read from the status dict (REGISTERED when absent). -/
def PluginManager.list_plugins (st : ManagerState) : List PluginInfo :=
  st.plugins.map (fun q =>
    { name := q.2.info.name
      version := q.2.info.version
      description := q.2.info.description
      capabilities := q.2.info.capabilities
      status := (dictGet st.statuses q.1).getD .registered })

/-- PluginManager.execute. Returns the new state, the sequence of status
values assigned to the named plugin during the call (RUNNING before the
plugin body, then INITIALIZED or ERROR), and the outcome. -/
def PluginManager.execute (st : ManagerState) (plugin_name command : String)
    (payload : Payload) :
    ManagerState × List PluginStatus × Except PluginErr Payload :=
  match dictGet st.plugins plugin_name with
  | none => (st, [], .error (.notFound plugin_name))
  | some p =>
    if p.capabilities.contains command then
      match p.execBehavior command payload with
      | .ok r =>
          ({ st with
             statuses := dictSet (dictSet st.statuses plugin_name .running)
               plugin_name .initialized },
           [.running, .initialized], .ok r)
      | .error cause =>
          ({ st with
             statuses := dictSet (dictSet st.statuses plugin_name .running)
               plugin_name .error },
           [.running, .error], .error (.executionFailure plugin_name command cause))
    else
      (st, [], .error (.unsupportedCommand plugin_name command p.capabilities))

/-! ### Orchestrator (naruu_core/orchestrator.py)

The Orchestrator here is constructed without an API key, so command
parsing is the keyword fallback; the AI strategy only applies when a
client credential was supplied at construction. -/

/-- Result dataclass of one orchestrated invocation. -/
structure OrchestratorResult where
  success : Bool
  plugin : String
  command : String
  result : Payload
  error : Option String
deriving Repr, DecidableEq

/-- Orchestrator.execute: publish the start event, delegate to the
manager, and convert the outcome into an OrchestratorResult, publishing
the done or error event; errors never escape. Returns the new manager
state, the events published, and the result. -/
def Orchestrator.execute (st : ManagerState) (plugin_name command : String)
    (payload : Payload) : ManagerState × List Event × OrchestratorResult :=
  let startEv : Event :=
    { event_type := "orchestrator.execute.start"
      data := [("plugin", plugin_name), ("command", command)]
      source := "orchestrator" }
  match PluginManager.execute st plugin_name command payload with
  | (st1, _trace, .ok r) =>
      (st1,
       [startEv,
        { event_type := "orchestrator.execute.done"
          data := [("plugin", plugin_name), ("command", command), ("status", "ok")]
          source := "orchestrator" }],
       { success := true, plugin := plugin_name, command := command
         result := r, error := none })
  | (st1, _trace, .error e) =>
      (st1,
       [startEv,
        { event_type := "orchestrator.execute.error"
          data := [("plugin", plugin_name), ("command", command), ("error", errMessage e)]
          source := "orchestrator" }],
       { success := false, plugin := plugin_name, command := command
         result := [], error := some (errMessage e) })

/-- One workflow step dict. -/
structure WorkflowStep where
  plugin : String
  command : String
  payload : Payload

/-- Orchestrator.execute_workflow: run the steps in order, appending each
result, and break immediately after the first result with success false. -/
def Orchestrator.execute_workflow (st : ManagerState) (steps : List WorkflowStep) :
    ManagerState × List OrchestratorResult :=
  match steps with
  | [] => (st, [])
  | step :: rest =>
      let out := Orchestrator.execute st step.plugin step.command step.payload
      if out.2.2.success then
        let tail := Orchestrator.execute_workflow out.1 rest
        (tail.1, out.2.2 :: tail.2)
      else
        (out.1, [out.2.2])

/-- Reference run with no break: the result of every step, each executed
in the state left by the previous one. Used only to state what the
fail-fast loop computes. -/
def runAllResults (st : ManagerState) (steps : List WorkflowStep) :
    List OrchestratorResult :=
  match steps with
  | [] => []
  | step :: rest =>
      let out := Orchestrator.execute st step.plugin step.command step.payload
      out.2.2 :: runAllResults out.1 rest

/-- Keep results up to and including the first failing one. -/
def takeThroughFirstFail (rs : List OrchestratorResult) : List OrchestratorResult :=
  match rs with
  | [] => []
  | r :: rest => if r.success then r :: takeThroughFirstFail rest else [r]

/-! #### Keyword command parsing -/

/-- Word fragments of a capability name: lower-case, the single-character
patterns dash and underscore replaced by spaces, then split on whitespace
discarding empties (Python str.split with no argument). -/
def capWords (cap : String) : List String :=
  splitWords
    (((strToLower cap).data.map (fun c => if c = '-' then ' ' else c)).map
      (fun c => if c = '_' then ' ' else c)) []

/-- Score of one capability against the lowered input text: the number of
its word fragments occurring as substrings of the text. -/
def capScore (textLower cap : String) : Nat :=
  (capWords cap).countP (fun w => strContainsSub textLower w)

/-- The inner scoring loop over the capabilities of one plugin, updating
the running best match on strict improvement only (first seen wins ties). -/
def scoreFold (textLower pname : String) (caps : List String)
    (best : Option (String × String)) (bestScore : Nat) :
    Option (String × String) × Nat :=
  match caps with
  | [] => (best, bestScore)
  | c :: rest =>
      if capScore textLower c > bestScore then
        scoreFold textLower pname rest (some (pname, c)) (capScore textLower c)
      else
        scoreFold textLower pname rest best bestScore

/-- The plugin loop of Orchestrator parsing with keywords. Per plugin: if
its lowered name is a substring of the lowered text, the loop over its
capabilities returns the first one immediately (when the capability list
is empty that loop body never runs and the plugin falls through to
scoring); otherwise every capability is scored against the running best. -/
def parseLoop (textLower text : String) (ps : List PluginInfo)
    (best : Option (String × String)) (bestScore : Nat) :
    Option (String × String × Payload) :=
  match ps with
  | [] =>
      match best with
      | some bm => if bestScore > 0 then some (bm.1, bm.2, [("text", text)]) else none
      | none => none
  | p :: rest =>
      match strContainsSub textLower (strToLower p.name), p.capabilities with
      | true, c :: _ => some (p.name, c, [("text", text)])
      | _, _ =>
          let upd := scoreFold textLower p.name p.capabilities best bestScore
          parseLoop textLower text rest upd.1 upd.2

/-- Orchestrator parse-with-keywords over the listed plugins. -/
def parse_with_keywords (plugins : List PluginInfo) (text : String) :
    Option (String × String × Payload) :=
  parseLoop (strToLower text) text plugins none 0

/-- Orchestrator.route in keyword mode: parse, and either return the fixed
unresolved failure without executing anything, or execute the resolved
triple. -/
def Orchestrator.route (st : ManagerState) (text : String) :
    ManagerState × List Event × OrchestratorResult :=
  match parse_with_keywords (PluginManager.list_plugins st) text with
  | none =>
      (st, [],
       { success := false, plugin := "", command := "", result := []
         error := some ("명령을 해석할 수 없습니다. 등록된 플러그인이 없거나 매칭되는 기능이 없습니다.") })
  | some (pn, cmd, payload) => Orchestrator.execute st pn cmd payload

/-! ### Content pipeline (plugins/content/service.py, pipeline/base.py,
pipeline/script_generator.py) -/

/-- Content record fields touched by the pipeline (SQLAlchemy model
contents); cost is an exact rational standing for the float column. -/
structure ContentRec where
  id : String
  title : String
  content_type : String
  language : String
  topic : String
  script : String
  status : String
  pipeline_stage : String
  cost_usd : ℚ
  publish_url : String
  error_message : String
deriving Repr, DecidableEq

/-- Values stored in the StageResult data dict. -/
inductive DataVal where
  | s (v : String)
  | n (v : Nat)
deriving Repr, DecidableEq

/-- StageResult dataclass. -/
structure StageResult where
  success : Bool
  next_stage : String
  data : List (String × DataVal)
  error : String
  cost_usd : ℚ
deriving Repr, DecidableEq

/-- One content block of the messages response body. -/
structure ContentBlock where
  type : String
  text : String
deriving Repr, DecidableEq

/-- Usage section of the response body (get with default 0 in the
source; modelled as total fields). -/
structure Usage where
  input_tokens : Nat
  output_tokens : Nat
deriving Repr, DecidableEq

/-- Parsed JSON body of a successful messages response. -/
structure ApiResponse where
  content : List ContentBlock
  usage : Usage
deriving Repr, DecidableEq

/-- Oracle for the outbound HTTPS call of the script generator: a 2xx
response with its parsed body, a non-2xx status (raise_for_status), or a
transport error. -/
inductive HttpOutcome where
  | ok (resp : ApiResponse)
  | httpStatusFailure (code : Nat)
  | transportFailure (msg : String)
deriving Repr, DecidableEq

/-- Per-token input cost in USD (3 dollars per million tokens). -/
def INPUT_COST_PER_TOKEN : ℚ := 3 / 1000000

/-- Per-token output cost in USD (15 dollars per million tokens). -/
def OUTPUT_COST_PER_TOKEN : ℚ := 15 / 1000000

/-- round(q, 6) over exact rationals: round half to even at the sixth
decimal, mirroring the Python round builtin. -/
def pyRound6 (q : ℚ) : ℚ :=
  let scaled : ℚ := q * 1000000
  let fl : ℤ := ⌊scaled⌋
  let frac : ℚ := scaled - (fl : ℚ)
  let r : ℤ :=
    if frac < 1 / 2 then fl
    else if 1 / 2 < frac then fl + 1
    else if fl % 2 = 0 then fl else fl + 1
  (r : ℚ) / 1000000

/-- calculate_cost of script_generator.py. -/
def calculate_cost (input_tokens output_tokens : Nat) : ℚ :=
  pyRound6 ((input_tokens : ℚ) * INPUT_COST_PER_TOKEN +
    (output_tokens : ℚ) * OUTPUT_COST_PER_TOKEN)

/-- Handler config keys read by the script generator (dict reads with
defaults in the source; an empty api key means the key is unset). -/
structure StageConfig where
  anthropic_api_key : String
  ai_model : String
deriving Repr, DecidableEq

/-- Concatenation of the text blocks of the response body, as the
script-text accumulation loop computes it. -/
def scriptTextOf (resp : ApiResponse) : String :=
  String.join ((resp.content.filter (fun b => b.type == "text")).map (fun b => b.text))

/-- ScriptGenerator.execute: fail without any call when the api key is
empty; otherwise the call outcome decides: on 2xx build the script text,
read the token usage and compute the cost, succeeding toward stage image;
a non-2xx status or a transport error becomes a failure StageResult with
a short diagnostic (never a raised error). The prompt construction is
absorbed into the call oracle. -/
def ScriptGenerator.execute (_content : ContentRec) (config : StageConfig)
    (net : HttpOutcome) : StageResult :=
  if config.anthropic_api_key = "" then
    { success := false, next_stage := "failed", data := []
      error := "anthropic_api_key가 설정되지 않았습니다.", cost_usd := 0 }
  else
    match net with
    | .ok resp =>
        { success := true
          next_stage := "image"
          data := [("script", .s (scriptTextOf resp)),
                   ("input_tokens", .n resp.usage.input_tokens),
                   ("output_tokens", .n resp.usage.output_tokens),
                   ("model", .s config.ai_model)]
          error := ""
          cost_usd := calculate_cost resp.usage.input_tokens resp.usage.output_tokens }
    | .httpStatusFailure code =>
        { success := false, next_stage := "failed", data := []
          error := "Claude API 오류: " ++ toString code, cost_usd := 0 }
    | .transportFailure msg =>
        { success := false, next_stage := "failed", data := []
          error := "네트워크 오류: " ++ msg, cost_usd := 0 }

/-- The fixed pipeline stage order. -/
def PIPELINE_ORDER : List String :=
  ["pending", "script", "image", "voice", "video", "publish", "done"]

/-- The stage-handler classes of the handler map. -/
inductive HandlerKind where
  | scriptGen
deriving Repr, DecidableEq

/-- STAGE_HANDLERS dict: only the script stage carries a handler; the
other mapped stages carry None and act as pass-through placeholders. -/
def STAGE_HANDLERS : List (String × Option HandlerKind) :=
  [("script", some .scriptGen), ("image", none), ("voice", none),
   ("video", none), ("publish", none)]

/-- ContentCRUD.advance_pipeline on a fetched record. A stage outside the
order, or the terminal stage, is a no-op. A stage whose handler entry is
a class runs the handler: on success move to its next_stage, add its cost
and merge a generated script; on failure set stage failed and record the
error. A stage without handler moves one step with no call and no cost.
The handler call outcome is the net oracle. -/
def advance_pipeline (content : ContentRec) (config : StageConfig)
    (net : HttpOutcome) : ContentRec :=
  let current := content.pipeline_stage
  if ¬ PIPELINE_ORDER.contains current then content
  else
    let idx := PIPELINE_ORDER.indexOf current
    if PIPELINE_ORDER.length - 1 ≤ idx then content
    else
      match (dictGet STAGE_HANDLERS current).join with
      | some .scriptGen =>
          let result := ScriptGenerator.execute content config net
          if result.success then
            let c1 := { content with
              pipeline_stage := result.next_stage
              cost_usd := content.cost_usd + result.cost_usd }
            match dictGet result.data ("script") with
            | some (.s v) => { c1 with script := v }
            | _ => c1
          else
            { content with pipeline_stage := "failed", error_message := result.error }
      | none =>
          { content with pipeline_stage := PIPELINE_ORDER.getD (idx + 1) ("") }

/-! ### Dictionary lemmas -/

/-- Setting a key makes it readable. -/
theorem dictGet_dictSet_self {α : Type} (d : List (String × α)) (k : String) (v : α) :
    dictGet (dictSet d k v) k = some v := by
  induction d with
  | nil => simp [dictGet, dictSet, List.find?]
  | cons a tl ih =>
    by_cases hk : a.1 = k
    · simp [dictGet, dictSet, List.find?, hk]
    · have hk2 : (a.1 == k) = false := by simpa using hk
      by_cases hs : (tl.find? (fun p => p.1 == k)).isSome
      · simp only [dictSet, List.find?, hk2, hs, cond_false, if_true]
        have ihx := ih
        simp only [dictSet, hs, if_true] at ihx
        simpa [dictGet, List.find?, hk2] using ihx
      · simp only [dictSet, List.find?, hk2, hs, cond_false, if_false]
        have ihx := ih
        simp only [dictSet, hs, if_false] at ihx
        simpa [dictGet, List.find?, hk2] using ihx

/-! ### Claim theorems: event bus -/

/-- Claim C10: the public history query get_history returns the most
recent limit events for limit at least one, while get_history of zero
returns the entire retained history — never the empty list when history is
non-empty — because the result is the slice history[-limit:]; and the
retained history stays within the 100-event cap maintained by record. -/
theorem C10_get_history_zero_full (st : EventBusState) (e : Event) (limit : Int) :
    (1 ≤ limit →
      EventBus.get_history st limit =
        st.history.drop (st.history.length - limit.toNat)) ∧
    EventBus.get_history st 0 = st.history ∧
    (st.history ≠ [] → EventBus.get_history st 0 ≠ []) ∧
    (st.max_history = 100 → st.history.length ≤ 100 →
      (EventBus.record st e).history.length ≤ 100) := by
  refine ⟨?_, ?_, ?_, ?_⟩
  · intro h
    have hneg : -limit < 0 := by omega
    have harith : Int.toNat ((st.history.length : Int) + -limit) =
        st.history.length - limit.toNat := by omega
    simp only [EventBus.get_history, pySliceFrom, hneg, if_true, harith]
  · simp [EventBus.get_history, pySliceFrom]
  · intro h
    simpa [EventBus.get_history, pySliceFrom] using h
  · intro h1 h2
    simp only [EventBus.record, h1]
    by_cases hlen : (st.history ++ [e]).length > 100
    · simp only [hlen, if_true, List.length_drop]
      omega
    · simp only [hlen, if_false]
      omega

/-- Closed instance of C10 at a concrete bus state. -/
theorem C10_get_history_zero_full_witness :
    EventBus.get_history
        { handlers := [], history := [{ event_type := "a", data := [], source := "" }],
          max_history := 100 } 0 =
      [{ event_type := "a", data := [], source := "" }] :=
  (C10_get_history_zero_full
    { handlers := [], history := [{ event_type := "a", data := [], source := "" }],
      max_history := 100 }
    { event_type := "b", data := [], source := "" } 0).2.1

/-- Claim C6: publish returns exactly one outcome per handler subscribed
to the event type — status error carrying the message for a handler that
raised, status ok for one that completed — and with zero subscribers it
returns the empty list; being a total function, it never propagates a
handler exception. -/
theorem C6_publish_outcomes (st : EventBusState) (e : Event) :
    ((EventBus.publish st e).2).length =
      (lookupHandlers st.handlers e.event_type).length ∧
    (∀ i (hi : i < (lookupHandlers st.handlers e.event_type).length)
        (ho : i < ((EventBus.publish st e).2).length),
      (((lookupHandlers st.handlers e.event_type).get ⟨i, hi⟩).behavior e = .ok () →
        (((EventBus.publish st e).2).get ⟨i, ho⟩).status = "ok" ∧
        (((EventBus.publish st e).2).get ⟨i, ho⟩).error = none) ∧
      (∀ msg,
        ((lookupHandlers st.handlers e.event_type).get ⟨i, hi⟩).behavior e = .error msg →
        (((EventBus.publish st e).2).get ⟨i, ho⟩).status = "error" ∧
        (((EventBus.publish st e).2).get ⟨i, ho⟩).error = some msg)) ∧
    (lookupHandlers st.handlers e.event_type = [] → (EventBus.publish st e).2 = []) := by
  have hrec : (EventBus.record st e).handlers = st.handlers := rfl
  by_cases hemp : (lookupHandlers st.handlers e.event_type).isEmpty
  · have hnil : lookupHandlers st.handlers e.event_type = [] := by
      simpa [List.isEmpty_iff] using hemp
    refine ⟨?_, ?_, ?_⟩
    · simp [EventBus.publish, hrec, hnil]
    · intro i hi ho
      rw [hnil] at hi
      exact absurd hi (by simp)
    · intro _
      simp [EventBus.publish, hrec, hnil]
  · have hpub : (EventBus.publish st e).2 =
        (lookupHandlers st.handlers e.event_type).map (fun h => safeOutcome h e) := by
      simp [EventBus.publish, hrec, hemp]
    refine ⟨?_, ?_, ?_⟩
    · simp [hpub]
    · intro i hi ho
      have hget : ((EventBus.publish st e).2).get ⟨i, ho⟩ =
          safeOutcome ((lookupHandlers st.handlers e.event_type).get ⟨i, hi⟩) e := by
        simp only [List.get_eq_getElem]
        rw [List.getElem_of_eq hpub ho]
        simp [List.getElem_map]
      constructor
      · intro hok
        rw [hget]
        simp only [List.get_eq_getElem] at hok
        simp [safeOutcome, hok]
      · intro msg herr
        rw [hget]
        simp only [List.get_eq_getElem] at herr
        simp [safeOutcome, herr]
    · intro h
      exact absurd (by simpa [List.isEmpty_iff] using h) hemp

/-- Closed instance of C6: a bus with two handlers on one type, the first
raising and the second completing, yields one error outcome and one ok
outcome, and a type with no subscribers yields the empty list. -/
theorem C6_publish_outcomes_witness :
    (((EventBus.publish
        { handlers := [("t", [{ qualname := "h1", behavior := fun _ => .error "boom" },
                              { qualname := "h2", behavior := fun _ => .ok () }])]
          history := [], max_history := 100 }
        { event_type := "t", data := [], source := "" }).2).length = 2) ∧
    (EventBus.publish
        { handlers := [("t", [{ qualname := "h1", behavior := fun _ => .error "boom" },
                              { qualname := "h2", behavior := fun _ => .ok () }])]
          history := [], max_history := 100 }
        { event_type := "u", data := [], source := "" }).2 = [] := by
  constructor
  · have h := (C6_publish_outcomes
      { handlers := [("t", [{ qualname := "h1", behavior := fun _ => .error "boom" },
                            { qualname := "h2", behavior := fun _ => .ok () }])]
        history := [], max_history := 100 }
      { event_type := "t", data := [], source := "" }).1
    rw [h]
    rfl
  · exact (C6_publish_outcomes
      { handlers := [("t", [{ qualname := "h1", behavior := fun _ => .error "boom" },
                            { qualname := "h2", behavior := fun _ => .ok () }])]
        history := [], max_history := 100 }
      { event_type := "u", data := [], source := "" }).2.2 rfl

/-! ### Claim theorems: plugin manager -/

/-- Claim C3: registration is atomic on failure — a duplicate name fails
with the duplicate-name error leaving the whole state (and in particular
the number of entries under that name) unchanged, and a new name whose
initialization raises fails with the initialization failure wrapping the
cause, sets that name to ERROR, and does not store the plugin. -/
theorem C3_register_atomic (st : ManagerState) (p : NaruuPlugin) (config : Payload) :
    ((dictGet st.plugins p.name).isSome = true →
      PluginManager.register st p config = (st, [], .error (.duplicateName p.name)) ∧
      (PluginManager.register st p config).1.plugins.countP (fun q => q.1 == p.name) =
        st.plugins.countP (fun q => q.1 == p.name)) ∧
    (∀ cause, dictGet st.plugins p.name = none →
      p.initBehavior config = .error cause →
      (PluginManager.register st p config).2.2 =
        .error (.initializationFailure p.name cause) ∧
      (PluginManager.register st p config).1.plugins = st.plugins ∧
      dictGet (PluginManager.register st p config).1.plugins p.name = none ∧
      dictGet (PluginManager.register st p config).1.statuses p.name = some .error) := by
  constructor
  · intro hdup
    have hreg : PluginManager.register st p config =
        (st, [], .error (.duplicateName p.name)) := by
      simp [PluginManager.register, hdup]
    exact ⟨hreg, by rw [hreg]⟩
  · intro cause hnone hfail
    have hreg : PluginManager.register st p config =
        ({ st with statuses := dictSet st.statuses p.name .error }, [],
         .error (.initializationFailure p.name cause)) := by
      simp [PluginManager.register, hnone, hfail]
    refine ⟨by rw [hreg], by rw [hreg], ?_, ?_⟩
    · rw [hreg]
      exact hnone
    · rw [hreg]
      exact dictGet_dictSet_self st.statuses p.name .error

/-- Closed instance of C3: registering a plugin whose initialization
raises on an empty registry fails without storing it and marks it ERROR. -/
theorem C3_register_atomic_witness :
    (PluginManager.register { plugins := [], statuses := [] }
        { name := "p", version := "1", description := "", capabilities := []
          initBehavior := fun _ => .error "boom"
          execBehavior := fun _ _ => .ok [] } []).2.2 =
      .error (.initializationFailure "p" "boom") ∧
    dictGet (PluginManager.register { plugins := [], statuses := [] }
        { name := "p", version := "1", description := "", capabilities := []
          initBehavior := fun _ => .error "boom"
          execBehavior := fun _ _ => .ok [] } []).1.plugins "p" = none := by
  have h := (C3_register_atomic { plugins := [], statuses := [] }
    { name := "p", version := "1", description := "", capabilities := []
      initBehavior := fun _ => .error "boom"
      execBehavior := fun _ _ => .ok [] } []).2 "boom" rfl rfl
  exact ⟨h.1, h.2.2.1⟩

/-- Claim C4: executing a command outside the capabilities of a
registered plugin fails with the unsupported-command error carrying the
valid capability set, leaves the state untouched with no status
transition, and never invokes the plugin body — the outcome is the same
for every execution behaviour. -/
theorem C4_unsupported_command (st : ManagerState) (name command : String)
    (p : NaruuPlugin) (payload : Payload)
    (hp : dictGet st.plugins name = some p)
    (hc : p.capabilities.contains command = false) :
    PluginManager.execute st name command payload =
      (st, [], .error (.unsupportedCommand name command p.capabilities)) ∧
    (∀ g, (PluginManager.execute
        { st with plugins := dictSet st.plugins name { p with execBehavior := g } }
        name command payload).2.2 =
      .error (.unsupportedCommand name command p.capabilities)) := by
  have hmem : command ∉ p.capabilities := by simpa using hc
  constructor
  · simp [PluginManager.execute, hp, hmem]
  · intro g
    have hget := dictGet_dictSet_self st.plugins name { p with execBehavior := g }
    simp [PluginManager.execute, hget, hmem]

/-- Closed instance of C4 on a one-plugin registry. -/
theorem C4_unsupported_command_witness :
    PluginManager.execute
        { plugins := [("p", { name := "p", version := "1", description := ""
                              capabilities := ["gen"]
                              initBehavior := fun _ => .ok ()
                              execBehavior := fun _ _ => .ok [] })]
          statuses := [("p", .initialized)] } "p" "other" [] =
      ({ plugins := [("p", { name := "p", version := "1", description := ""
                             capabilities := ["gen"]
                             initBehavior := fun _ => .ok ()
                             execBehavior := fun _ _ => .ok [] })]
         statuses := [("p", .initialized)] }, [],
       .error (.unsupportedCommand "p" "other" ["gen"])) :=
  (C4_unsupported_command
    { plugins := [("p", { name := "p", version := "1", description := ""
                          capabilities := ["gen"]
                          initBehavior := fun _ => .ok ()
                          execBehavior := fun _ _ => .ok [] })]
      statuses := [("p", .initialized)] } "p" "other"
    { name := "p", version := "1", description := "", capabilities := ["gen"]
      initBehavior := fun _ => .ok ()
      execBehavior := fun _ _ => .ok [] } [] rfl rfl).1

/-- Claim C5: a plugin whose body raises during execute is set to ERROR
and the call fails with the execution failure, but the plugin stays in
the registry and get still returns it; a subsequent execute of a
supported succeeding command goes RUNNING then INITIALIZED and returns
the result — execution errors never remove a plugin. -/
theorem C5_execution_failure_keeps_plugin (st : ManagerState) (name : String)
    (p : NaruuPlugin) (c1 : String) (pl1 : Payload) (cause : String)
    (hp : dictGet st.plugins name = some p)
    (hc1 : p.capabilities.contains c1 = true)
    (hfail : p.execBehavior c1 pl1 = .error cause) :
    (PluginManager.execute st name c1 pl1).2.2 =
      .error (.executionFailure name c1 cause) ∧
    (PluginManager.execute st name c1 pl1).2.1 = [.running, .error] ∧
    (PluginManager.execute st name c1 pl1).1.plugins = st.plugins ∧
    PluginManager.get (PluginManager.execute st name c1 pl1).1 name = some p ∧
    dictGet (PluginManager.execute st name c1 pl1).1.statuses name = some .error ∧
    (∀ c2 pl2 r, p.capabilities.contains c2 = true →
      p.execBehavior c2 pl2 = .ok r →
      (PluginManager.execute (PluginManager.execute st name c1 pl1).1 name c2 pl2).2.2 =
        .ok r ∧
      (PluginManager.execute (PluginManager.execute st name c1 pl1).1 name c2 pl2).2.1 =
        [.running, .initialized] ∧
      dictGet (PluginManager.execute
          (PluginManager.execute st name c1 pl1).1 name c2 pl2).1.statuses name =
        some .initialized) := by
  have hmem1 : c1 ∈ p.capabilities := by simpa using hc1
  have hex : PluginManager.execute st name c1 pl1 =
      ({ st with statuses := dictSet (dictSet st.statuses name .running) name .error },
       [.running, .error], .error (.executionFailure name c1 cause)) := by
    simp [PluginManager.execute, hp, hmem1, hfail]
  refine ⟨by rw [hex], by rw [hex], by rw [hex], ?_, ?_, ?_⟩
  · rw [hex]
    exact hp
  · rw [hex]
    exact dictGet_dictSet_self (dictSet st.statuses name .running) name .error
  · intro c2 pl2 r hc2 hok
    have hmem2 : c2 ∈ p.capabilities := by simpa using hc2
    have hp2 : dictGet (PluginManager.execute st name c1 pl1).1.plugins name = some p := by
      rw [hex]
      exact hp
    have hex2 : PluginManager.execute (PluginManager.execute st name c1 pl1).1 name c2 pl2 =
        ({ (PluginManager.execute st name c1 pl1).1 with
           statuses := dictSet
             (dictSet (PluginManager.execute st name c1 pl1).1.statuses name .running)
             name .initialized },
         [.running, .initialized], .ok r) := by
      rw [hex]
      simp [PluginManager.execute, hp, hmem2, hok]
    refine ⟨by rw [hex2], by rw [hex2], ?_⟩
    rw [hex2]
    exact dictGet_dictSet_self _ name PluginStatus.initialized

/-- Closed instance of C5: one plugin whose body raises on command a and
succeeds on command b; after the failing call it is still registered and
the next call succeeds with the RUNNING then INITIALIZED transition. -/
theorem C5_execution_failure_keeps_plugin_witness :
    (PluginManager.execute
        { plugins := [("p", { name := "p", version := "1", description := ""
                              capabilities := ["a", "b"]
                              initBehavior := fun _ => .ok ()
                              execBehavior := fun c _ =>
                                if c = "a" then .error "crash" else .ok [("st", "ok")] })]
          statuses := [("p", .initialized)] } "p" "a" []).2.2 =
      .error (.executionFailure "p" "a" "crash") ∧
    PluginManager.get (PluginManager.execute
        { plugins := [("p", { name := "p", version := "1", description := ""
                              capabilities := ["a", "b"]
                              initBehavior := fun _ => .ok ()
                              execBehavior := fun c _ =>
                                if c = "a" then .error "crash" else .ok [("st", "ok")] })]
          statuses := [("p", .initialized)] } "p" "a" []).1 "p" =
      some { name := "p", version := "1", description := ""
             capabilities := ["a", "b"]
             initBehavior := fun _ => .ok ()
             execBehavior := fun c _ =>
               if c = "a" then .error "crash" else .ok [("st", "ok")] } ∧
    (PluginManager.execute (PluginManager.execute
        { plugins := [("p", { name := "p", version := "1", description := ""
                              capabilities := ["a", "b"]
                              initBehavior := fun _ => .ok ()
                              execBehavior := fun c _ =>
                                if c = "a" then .error "crash" else .ok [("st", "ok")] })]
          statuses := [("p", .initialized)] } "p" "a" []).1 "p" "b" []).2.2 =
      .ok [("st", "ok")] := by
  have h := C5_execution_failure_keeps_plugin
    { plugins := [("p", { name := "p", version := "1", description := ""
                          capabilities := ["a", "b"]
                          initBehavior := fun _ => .ok ()
                          execBehavior := fun c _ =>
                            if c = "a" then .error "crash" else .ok [("st", "ok")] })]
      statuses := [("p", .initialized)] } "p"
    { name := "p", version := "1", description := "", capabilities := ["a", "b"]
      initBehavior := fun _ => .ok ()
      execBehavior := fun c _ =>
        if c = "a" then .error "crash" else .ok [("st", "ok")] }
    "a" [] "crash" rfl rfl rfl
  exact ⟨h.1, h.2.2.2.1, (h.2.2.2.2.2 "b" [] [("st", "ok")] rfl rfl).1⟩

/-! ### Claim theorems: orchestrator workflow -/

/-- Claim C7: execute_workflow runs the steps strictly sequentially with
fail-fast semantics — the result list is at most as long as the step
list, equals the sequential per-step results cut off right after the
first failing one, and once a failure occurs in a prefix no appended
later step is ever executed (the output does not depend on them). -/
theorem C7_workflow_fail_fast (st : ManagerState) (steps : List WorkflowStep) :
    ((Orchestrator.execute_workflow st steps).2).length ≤ steps.length ∧
    (Orchestrator.execute_workflow st steps).2 =
      takeThroughFirstFail (runAllResults st steps) ∧
    (∀ rest, (∃ r ∈ (Orchestrator.execute_workflow st steps).2, r.success = false) →
      Orchestrator.execute_workflow st (steps ++ rest) =
        Orchestrator.execute_workflow st steps) := by
  induction steps generalizing st with
  | nil =>
    refine ⟨by simp [Orchestrator.execute_workflow], by simp [Orchestrator.execute_workflow, runAllResults, takeThroughFirstFail], ?_⟩
    intro rest h
    rcases h with ⟨r, hr, _⟩
    simp [Orchestrator.execute_workflow] at hr
  | cons step tl ih =>
    by_cases hs : (Orchestrator.execute st step.plugin step.command step.payload).2.2.success
    · have hwf : Orchestrator.execute_workflow st (step :: tl) =
          ((Orchestrator.execute_workflow
              (Orchestrator.execute st step.plugin step.command step.payload).1 tl).1,
           (Orchestrator.execute st step.plugin step.command step.payload).2.2 ::
            (Orchestrator.execute_workflow
              (Orchestrator.execute st step.plugin step.command step.payload).1 tl).2) := by
        simp [Orchestrator.execute_workflow, hs]
      obtain ⟨ih1, ih2, ih3⟩ :=
        ih (Orchestrator.execute st step.plugin step.command step.payload).1
      refine ⟨?_, ?_, ?_⟩
      · rw [hwf]
        simpa using Nat.succ_le_succ ih1
      · rw [hwf]
        simp only [runAllResults, takeThroughFirstFail, hs, if_true]
        exact congrArg _ ih2
      · intro rest hfailmem
        have hwf2 : Orchestrator.execute_workflow st ((step :: tl) ++ rest) =
            ((Orchestrator.execute_workflow
                (Orchestrator.execute st step.plugin step.command step.payload).1
                (tl ++ rest)).1,
             (Orchestrator.execute st step.plugin step.command step.payload).2.2 ::
              (Orchestrator.execute_workflow
                (Orchestrator.execute st step.plugin step.command step.payload).1
                (tl ++ rest)).2) := by
          simp [Orchestrator.execute_workflow, hs]
        have hmem2 : ∃ r ∈ (Orchestrator.execute_workflow
            (Orchestrator.execute st step.plugin step.command step.payload).1 tl).2,
            r.success = false := by
          rcases hfailmem with ⟨r, hr, hrf⟩
          rw [hwf] at hr
          rcases List.mem_cons.mp hr with heq | htail
          · exfalso
            rw [heq] at hrf
            rw [hrf] at hs
            exact Bool.false_ne_true hs
          · exact ⟨r, htail, hrf⟩
        rw [hwf2, hwf, ih3 rest hmem2]
    · have hwf : Orchestrator.execute_workflow st (step :: tl) =
          ((Orchestrator.execute st step.plugin step.command step.payload).1,
           [(Orchestrator.execute st step.plugin step.command step.payload).2.2]) := by
        simp [Orchestrator.execute_workflow, hs]
      refine ⟨?_, ?_, ?_⟩
      · rw [hwf]
        simp
      · rw [hwf]
        simp [runAllResults, takeThroughFirstFail, hs]
      · intro rest _
        have hwf2 : Orchestrator.execute_workflow st ((step :: tl) ++ rest) =
            ((Orchestrator.execute st step.plugin step.command step.payload).1,
             [(Orchestrator.execute st step.plugin step.command step.payload).2.2]) := by
          simp [Orchestrator.execute_workflow, hs]
        rw [hwf2, hwf]

/-- Concrete plugin for the workflow scenario: command bad raises, any
other command succeeds. -/
def wfPlugin : NaruuPlugin :=
  { name := "w", version := "1", description := "", capabilities := ["good", "bad"]
    initBehavior := fun _ => .ok ()
    execBehavior := fun c _ => if c = "bad" then .error "boom" else .ok [] }

/-- Concrete manager state for the workflow scenario. -/
def wfState : ManagerState :=
  { plugins := [("w", wfPlugin)], statuses := [("w", .initialized)] }

/-- Closed instance of C7: for the step list [ok, fail, ok2] the workflow
returns exactly two results, and appending the third step after the
failing prefix leaves the run unchanged — it is never executed. -/
theorem C7_workflow_fail_fast_witness :
    (Orchestrator.execute_workflow wfState
        [{ plugin := "w", command := "good", payload := [] },
         { plugin := "w", command := "bad", payload := [] }]).2.length = 2 ∧
    Orchestrator.execute_workflow wfState
        ([{ plugin := "w", command := "good", payload := [] },
          { plugin := "w", command := "bad", payload := [] }] ++
         [{ plugin := "w", command := "good", payload := [] }]) =
      Orchestrator.execute_workflow wfState
        [{ plugin := "w", command := "good", payload := [] },
         { plugin := "w", command := "bad", payload := [] }] := by
  constructor
  · rfl
  · exact (C7_workflow_fail_fast wfState
      [{ plugin := "w", command := "good", payload := [] },
       { plugin := "w", command := "bad", payload := [] }]).2.2
      [{ plugin := "w", command := "good", payload := [] }]
      (by decide)

/-! ### Claim theorems: content pipeline -/

/-- Appending to a non-empty string is non-empty. -/
theorem strAppend_ne_empty (a b : String) (ha : a ≠ "") : a ++ b ≠ "" := by
  intro hc
  apply ha
  have hlen := congrArg String.length hc
  rw [String.length_append] at hlen
  have h0 : a.length = 0 := by
    have : ("" : String).length = 0 := rfl
    omega
  cases a with
  | mk data =>
    cases data with
    | nil => rfl
    | cons c cs => simp [String.length, List.length] at h0

/-- Every failure result of the script generator carries a non-empty
error message. -/
theorem scriptGenerator_error_nonempty (content : ContentRec) (config : StageConfig)
    (net : HttpOutcome)
    (hfail : (ScriptGenerator.execute content config net).success = false) :
    (ScriptGenerator.execute content config net).error ≠ "" := by
  unfold ScriptGenerator.execute at hfail ⊢
  by_cases hkey : config.anthropic_api_key = ""
  · simp only [hkey, if_true]
    decide
  · simp only [hkey, if_false] at hfail ⊢
    cases net with
    | ok resp => simp at hfail
    | httpStatusFailure code =>
        simp only
        exact strAppend_ne_empty ("Claude API 오류: ") (toString code) (by decide)
    | transportFailure msg =>
        simp only
        exact strAppend_ne_empty ("네트워크 오류: ") msg (by decide)

/-- Advance at the script stage with a failing handler result rewrites
only the stage and the error message. -/
theorem advance_script_failure_eq (content : ContentRec) (config : StageConfig)
    (net : HttpOutcome)
    (hstage : content.pipeline_stage = "script")
    (hfail : (ScriptGenerator.execute content config net).success = false) :
    advance_pipeline content config net =
      { content with
        pipeline_stage := "failed"
        error_message := (ScriptGenerator.execute content config net).error } := by
  simp only [advance_pipeline, hstage]
  norm_num [show PIPELINE_ORDER.contains ("script") = true from rfl,
    show PIPELINE_ORDER.indexOf ("script") = 1 from rfl,
    show (dictGet STAGE_HANDLERS ("script")).join = some HandlerKind.scriptGen from rfl,
    show PIPELINE_ORDER.length = 7 from rfl, hfail]
  rw [if_pos (show ("script" : String) ∈ PIPELINE_ORDER by decide)]
  rfl

/-- Claim C1: only the script stage has a registered handler, and when
that handler returns a failure the advance leaves the record at stage
failed with the error recorded as a non-empty error_message and the cost
accumulator unchanged. -/
theorem C1_failing_handler (content : ContentRec) (config : StageConfig)
    (net : HttpOutcome)
    (hstage : content.pipeline_stage = "script")
    (hfail : (ScriptGenerator.execute content config net).success = false) :
    (∀ q ∈ STAGE_HANDLERS, q.2 ≠ none → q.1 = "script") ∧
    (advance_pipeline content config net).pipeline_stage = "failed" ∧
    (advance_pipeline content config net).error_message =
      (ScriptGenerator.execute content config net).error ∧
    (advance_pipeline content config net).error_message ≠ "" ∧
    (advance_pipeline content config net).cost_usd = content.cost_usd := by
  have hadv := advance_script_failure_eq content config net hstage hfail
  refine ⟨by decide, by rw [hadv], by rw [hadv], ?_, by rw [hadv]⟩
  rw [hadv]
  exact scriptGenerator_error_nonempty content config net hfail

/-- Concrete content record at stage script used to instantiate the
failing-handler claim. -/
def scriptStageContent : ContentRec :=
  { id := "c1", title := "t", content_type := "video", language := "ja"
    topic := "", script := "", status := "draft", pipeline_stage := "script"
    cost_usd := 2, publish_url := "", error_message := "" }

/-- Closed instance of C1: advancing a script-stage record with a handler
failing on a transport error yields stage failed, the transport
diagnostic, and an unchanged cost. -/
theorem C1_failing_handler_witness :
    (advance_pipeline scriptStageContent
        { anthropic_api_key := "k", ai_model := "m" }
        (.transportFailure "conn reset")).pipeline_stage = "failed" ∧
    (advance_pipeline scriptStageContent
        { anthropic_api_key := "k", ai_model := "m" }
        (.transportFailure "conn reset")).error_message ≠ "" ∧
    (advance_pipeline scriptStageContent
        { anthropic_api_key := "k", ai_model := "m" }
        (.transportFailure "conn reset")).cost_usd = scriptStageContent.cost_usd := by
  have h := C1_failing_handler scriptStageContent
    { anthropic_api_key := "k", ai_model := "m" } (.transportFailure "conn reset")
    rfl rfl
  exact ⟨h.2.1, h.2.2.2.1, h.2.2.2.2⟩

/-- Advance at a pass-through stage (a member of the order, not the last,
whose handler entry is empty) only moves the stage to the next element. -/
theorem advance_pass_eq (content : ContentRec) (config : StageConfig)
    (net : HttpOutcome) (s : String) (hstage : content.pipeline_stage = s)
    (hs : s = "pending" ∨ s = "image" ∨ s = "voice" ∨ s = "video" ∨ s = "publish") :
    advance_pipeline content config net =
      { content with
        pipeline_stage := PIPELINE_ORDER.getD (PIPELINE_ORDER.indexOf s + 1) ("") } := by
  rcases hs with h | h | h | h | h <;> subst h <;>
    · simp only [advance_pipeline, hstage]
      norm_num [show PIPELINE_ORDER.length = 7 from rfl,
        show PIPELINE_ORDER.indexOf ("pending") = 0 from rfl,
        show PIPELINE_ORDER.indexOf ("image") = 2 from rfl,
        show PIPELINE_ORDER.indexOf ("voice") = 3 from rfl,
        show PIPELINE_ORDER.indexOf ("video") = 4 from rfl,
        show PIPELINE_ORDER.indexOf ("publish") = 5 from rfl]
      rw [if_pos (by decide)]
      rfl

/-- A successful script-generator result always advances toward the image
stage. -/
theorem scriptGenerator_success_next (content : ContentRec) (config : StageConfig)
    (net : HttpOutcome)
    (hs : (ScriptGenerator.execute content config net).success = true) :
    (ScriptGenerator.execute content config net).next_stage = "image" := by
  unfold ScriptGenerator.execute at hs ⊢
  by_cases hkey : config.anthropic_api_key = ""
  · simp [hkey] at hs
  · simp only [hkey, if_false] at hs ⊢
    cases net with
    | ok resp => rfl
    | httpStatusFailure code => simp at hs
    | transportFailure msg => simp at hs

/-- Advance at the script stage with a succeeding handler lands on the
next_stage of the handler result. -/
theorem advance_script_success_stage (content : ContentRec) (config : StageConfig)
    (net : HttpOutcome)
    (hstage : content.pipeline_stage = "script")
    (hs : (ScriptGenerator.execute content config net).success = true) :
    (advance_pipeline content config net).pipeline_stage =
      (ScriptGenerator.execute content config net).next_stage := by
  simp only [advance_pipeline, hstage]
  norm_num [show PIPELINE_ORDER.indexOf ("script") = 1 from rfl,
    show PIPELINE_ORDER.length = 7 from rfl, hs]
  rw [if_pos (show ("script" : String) ∈ PIPELINE_ORDER by decide)]
  cases hdata : dictGet (ScriptGenerator.execute content config net).data ("script") with
  | none =>
    simp only [hdata]
    rfl
  | some dv =>
    cases dv with
    | s v =>
      simp only [hdata]
      rfl
    | n v =>
      simp only [hdata]
      rfl

/-- The element after a pass-through stage sits exactly one position
later in the order. -/
theorem indexOf_next_pass (s : String)
    (hs : s = "pending" ∨ s = "image" ∨ s = "voice" ∨ s = "video" ∨ s = "publish") :
    PIPELINE_ORDER.indexOf (PIPELINE_ORDER.getD (PIPELINE_ORDER.indexOf s + 1) ("")) =
      PIPELINE_ORDER.indexOf s + 1 := by
  rcases hs with h | h | h | h | h <;> subst h <;> decide

/-- Claim C2: one advance call moves the stage at most one step forward
in the fixed order or to failed, and a record at done, at failed, or at a
stage outside the sequence is left completely unchanged. -/
theorem C2_advance_at_most_one_step (content : ContentRec) (config : StageConfig)
    (net : HttpOutcome) :
    (content.pipeline_stage = "done" → advance_pipeline content config net = content) ∧
    (content.pipeline_stage = "failed" → advance_pipeline content config net = content) ∧
    (PIPELINE_ORDER.contains content.pipeline_stage = false →
      advance_pipeline content config net = content) ∧
    (advance_pipeline content config net = content ∨
     (advance_pipeline content config net).pipeline_stage = "failed" ∨
     PIPELINE_ORDER.indexOf (advance_pipeline content config net).pipeline_stage =
       PIPELINE_ORDER.indexOf content.pipeline_stage + 1) := by
  by_cases hmem : PIPELINE_ORDER.contains content.pipeline_stage = true
  · have h7 : content.pipeline_stage = "pending" ∨ content.pipeline_stage = "script" ∨
        content.pipeline_stage = "image" ∨ content.pipeline_stage = "voice" ∨
        content.pipeline_stage = "video" ∨ content.pipeline_stage = "publish" ∨
        content.pipeline_stage = "done" := by
      simpa [PIPELINE_ORDER] using hmem
    have hcontra : ∀ s t : String, content.pipeline_stage = s → s ≠ t →
        (content.pipeline_stage = t → advance_pipeline content config net = content) := by
      intro s t hse hne hte
      exact absurd (hse.symm.trans hte) hne
    have hcfalse : PIPELINE_ORDER.contains content.pipeline_stage = false →
        advance_pipeline content config net = content := by
      intro hf
      rw [hmem] at hf
      exact absurd hf (by decide)
    rcases h7 with h | h | h | h | h | h | h
    · refine ⟨hcontra _ _ h (by decide), hcontra _ _ h (by decide), hcfalse, ?_⟩
      right; right
      rw [advance_pass_eq content config net ("pending") h (by decide), h]
      exact indexOf_next_pass ("pending") (by decide)
    · refine ⟨hcontra _ _ h (by decide), hcontra _ _ h (by decide), hcfalse, ?_⟩
      by_cases hs : (ScriptGenerator.execute content config net).success = true
      · right; right
        rw [advance_script_success_stage content config net h hs,
          scriptGenerator_success_next content config net hs, h]
        decide
      · right; left
        rw [advance_script_failure_eq content config net h (by simpa using hs)]
    · refine ⟨hcontra _ _ h (by decide), hcontra _ _ h (by decide), hcfalse, ?_⟩
      right; right
      rw [advance_pass_eq content config net ("image") h (by decide), h]
      exact indexOf_next_pass ("image") (by decide)
    · refine ⟨hcontra _ _ h (by decide), hcontra _ _ h (by decide), hcfalse, ?_⟩
      right; right
      rw [advance_pass_eq content config net ("voice") h (by decide), h]
      exact indexOf_next_pass ("voice") (by decide)
    · refine ⟨hcontra _ _ h (by decide), hcontra _ _ h (by decide), hcfalse, ?_⟩
      right; right
      rw [advance_pass_eq content config net ("video") h (by decide), h]
      exact indexOf_next_pass ("video") (by decide)
    · refine ⟨hcontra _ _ h (by decide), hcontra _ _ h (by decide), hcfalse, ?_⟩
      right; right
      rw [advance_pass_eq content config net ("publish") h (by decide), h]
      exact indexOf_next_pass ("publish") (by decide)
    · have hadv : advance_pipeline content config net = content := by
        simp only [advance_pipeline, h]
        norm_num [show PIPELINE_ORDER.indexOf ("done") = 6 from rfl,
          show PIPELINE_ORDER.length = 7 from rfl]
      exact ⟨fun _ => hadv, fun _ => hadv, fun _ => hadv, Or.inl hadv⟩
  · have hf : PIPELINE_ORDER.contains content.pipeline_stage = false := by
      simpa using hmem
    have hadv : advance_pipeline content config net = content := by
      simp only [advance_pipeline]
      rw [if_pos (show ¬ PIPELINE_ORDER.contains content.pipeline_stage = true from by
        simp only [hf]
        decide)]
    exact ⟨fun _ => hadv, fun _ => hadv, fun _ => hadv, Or.inl hadv⟩

/-- Concrete content record already at the terminal stage. -/
def doneContent : ContentRec :=
  { id := "c2", title := "t", content_type := "video", language := "ja"
    topic := "", script := "s", status := "draft", pipeline_stage := "done"
    cost_usd := 5, publish_url := "", error_message := "" }

/-- Closed instance of C2: advancing a record already at done is a
no-op. -/
theorem C2_advance_at_most_one_step_witness :
    advance_pipeline doneContent { anthropic_api_key := "k", ai_model := "m" }
      (.transportFailure "x") = doneContent :=
  (C2_advance_at_most_one_step doneContent
    { anthropic_api_key := "k", ai_model := "m" } (.transportFailure "x")).1 rfl

/-- Claim C8: from a pending record with zero cost, the first advance has
no handler — it moves to script, touches nothing else and is independent
of the call oracle — and a second advance whose handler succeeds with 150
input and 500 output tokens moves to image, stores the generated
non-empty script, and leaves cost 0.00795, the value of calculate_cost at
those token counts. -/
theorem C8_pipeline_scenario (c : ContentRec) (config : StageConfig)
    (net1 : HttpOutcome) (resp : ApiResponse)
    (hstage : c.pipeline_stage = "pending") (hcost : c.cost_usd = 0)
    (hkey : config.anthropic_api_key ≠ "")
    (husage : resp.usage = { input_tokens := 150, output_tokens := 500 })
    (hscript : scriptTextOf resp ≠ "") :
    advance_pipeline c config net1 = { c with pipeline_stage := "script" } ∧
    (advance_pipeline c config net1).cost_usd = c.cost_usd ∧
    (∀ net net2, advance_pipeline c config net = advance_pipeline c config net2) ∧
    (advance_pipeline (advance_pipeline c config net1) config
        (.ok resp)).pipeline_stage = "image" ∧
    (advance_pipeline (advance_pipeline c config net1) config (.ok resp)).script =
      scriptTextOf resp ∧
    (advance_pipeline (advance_pipeline c config net1) config (.ok resp)).script ≠ "" ∧
    (advance_pipeline (advance_pipeline c config net1) config (.ok resp)).cost_usd =
      795 / 100000 ∧
    calculate_cost 150 500 = 795 / 100000 := by
  have hpass : ∀ net : HttpOutcome, advance_pipeline c config net =
      { c with pipeline_stage := "script" } := by
    intro net
    have := advance_pass_eq c config net ("pending") hstage (by decide)
    simpa using this
  have hcalc : calculate_cost 150 500 = 795 / 100000 := by
    norm_num [calculate_cost, pyRound6, INPUT_COST_PER_TOKEN, OUTPUT_COST_PER_TOKEN]
  have hexec : ScriptGenerator.execute { c with pipeline_stage := "script" } config
      (.ok resp) =
      { success := true
        next_stage := "image"
        data := [("script", .s (scriptTextOf resp)),
                 ("input_tokens", .n resp.usage.input_tokens),
                 ("output_tokens", .n resp.usage.output_tokens),
                 ("model", .s config.ai_model)]
        error := ""
        cost_usd := calculate_cost resp.usage.input_tokens resp.usage.output_tokens } := by
    simp [ScriptGenerator.execute, hkey]
  have hadv2 : advance_pipeline { c with pipeline_stage := "script" } config (.ok resp) =
      { c with
        pipeline_stage := "image"
        script := scriptTextOf resp
        cost_usd := c.cost_usd +
          calculate_cost resp.usage.input_tokens resp.usage.output_tokens } := by
    simp only [advance_pipeline]
    norm_num [show PIPELINE_ORDER.indexOf ("script") = 1 from rfl,
      show PIPELINE_ORDER.length = 7 from rfl, hexec]
    rw [if_pos (show ("script" : String) ∈ PIPELINE_ORDER by decide)]
    rfl
  refine ⟨hpass net1, ?_, fun net net2 => (hpass net).trans (hpass net2).symm, ?_, ?_, ?_, ?_, hcalc⟩
  · rw [hpass net1]
  · rw [hpass net1, hadv2]
  · rw [hpass net1, hadv2]
  · rw [hpass net1, hadv2]
    exact hscript
  · rw [hpass net1, hadv2]
    simp only [husage]
    rw [hcost, hcalc]
    norm_num

/-- Concrete pending record and response instantiating the pipeline
scenario. -/
def pendingContent : ContentRec :=
  { id := "c8", title := "t", content_type := "video", language := "ja"
    topic := "", script := "", status := "draft", pipeline_stage := "pending"
    cost_usd := 0, publish_url := "", error_message := "" }

/-- Concrete successful response with 150 input and 500 output tokens. -/
def scenarioResp : ApiResponse :=
  { content := [{ type := "text", text := "hello" }]
    usage := { input_tokens := 150, output_tokens := 500 } }

/-- Closed instance of C8 at the concrete record and response. -/
theorem C8_pipeline_scenario_witness :
    advance_pipeline pendingContent { anthropic_api_key := "k", ai_model := "m" }
        (.ok scenarioResp) =
      { pendingContent with pipeline_stage := "script" } ∧
    (advance_pipeline
        (advance_pipeline pendingContent { anthropic_api_key := "k", ai_model := "m" }
          (.ok scenarioResp))
        { anthropic_api_key := "k", ai_model := "m" }
        (.ok scenarioResp)).cost_usd = 795 / 100000 := by
  have h := C8_pipeline_scenario pendingContent
    { anthropic_api_key := "k", ai_model := "m" } (.ok scenarioResp) scenarioResp
    rfl rfl (by decide) rfl (by decide)
  exact ⟨h.1, h.2.2.2.2.2.2.1⟩

/-! ### Claim theorems: keyword routing -/

/-- All (plugin name, capability, score) triples in declaration order. -/
def pairScores (textLower : String) (ps : List PluginInfo) :
    List (String × String × Nat) :=
  ps.flatMap (fun p => p.capabilities.map (fun c => (p.name, c, capScore textLower c)))

/-- The best-match fold over scored pairs, updating on strict improvement
only. -/
def argmaxFold (pairs : List (String × String × Nat))
    (best : Option (String × String)) (bestScore : Nat) :
    Option (String × String) × Nat :=
  match pairs with
  | [] => (best, bestScore)
  | q :: rest =>
      if q.2.2 > bestScore then argmaxFold rest (some (q.1, q.2.1)) q.2.2
      else argmaxFold rest best bestScore

/-- The highest score among all capability pairs. -/
def kwMaxScore (textLower : String) (ps : List PluginInfo) : Nat :=
  ((pairScores textLower ps).map (fun q => q.2.2)).foldl max 0

/-- Scoring one capability list is the best-match fold over its scored
pairs. -/
theorem scoreFold_eq_argmax (textLower pname : String) (caps : List String)
    (best : Option (String × String)) (bestScore : Nat) :
    scoreFold textLower pname caps best bestScore =
      argmaxFold (caps.map (fun c => (pname, c, capScore textLower c))) best bestScore := by
  induction caps generalizing best bestScore with
  | nil => rfl
  | cons c rest ih =>
    simp only [scoreFold, List.map_cons, argmaxFold]
    by_cases h : capScore textLower c > bestScore
    · rw [if_pos h, if_pos h, ih]
    · rw [if_neg h, if_neg h, ih]

/-- The best-match fold splits over appended pair lists. -/
theorem argmaxFold_append (l1 l2 : List (String × String × Nat))
    (b : Option (String × String)) (s : Nat) :
    argmaxFold (l1 ++ l2) b s =
      argmaxFold l2 (argmaxFold l1 b s).1 (argmaxFold l1 b s).2 := by
  induction l1 generalizing b s with
  | nil => rfl
  | cons q rest ih =>
    simp only [List.cons_append, argmaxFold]
    by_cases h : q.2.2 > s
    · rw [if_pos h, if_pos h]
      exact ih _ _
    · rw [if_neg h, if_neg h]
      exact ih _ _

/-- The seed is a lower bound of a max fold. -/
theorem le_foldl_max (s : Nat) (l : List Nat) : s ≤ l.foldl max s := by
  induction l generalizing s with
  | nil => simp
  | cons a tl ih => exact le_trans (Nat.le_max_left s a) (ih (max s a))

/-- Every member is a lower bound of a max fold. -/
theorem mem_le_foldl_max (l : List Nat) (x : Nat) (hx : x ∈ l) (s : Nat) :
    x ≤ l.foldl max s := by
  induction l generalizing s with
  | nil => cases hx
  | cons a tl ih =>
    rcases List.mem_cons.mp hx with h | h
    · subst h
      exact le_trans (Nat.le_max_right s x) (le_foldl_max (max s x) tl)
    · exact ih h (max s a)

/-- A max fold that stays at its seed bounds every member by the seed. -/
theorem foldl_max_eq_init (l : List Nat) (s : Nat) (h : l.foldl max s = s) :
    ∀ x ∈ l, x ≤ s :=
  fun x hx => h ▸ mem_le_foldl_max l x hx s

/-- The score component of the best-match fold is the max fold of all
pair scores over the incoming score. -/
theorem argmaxFold_score (pairs : List (String × String × Nat))
    (b : Option (String × String)) (s : Nat) :
    (argmaxFold pairs b s).2 = (pairs.map (fun q => q.2.2)).foldl max s := by
  induction pairs generalizing b s with
  | nil => rfl
  | cons q rest ih =>
    simp only [argmaxFold, List.map_cons, List.foldl_cons]
    by_cases h : q.2.2 > s
    · rw [if_pos h, ih]
      congr 1
      omega
    · rw [if_neg h, ih]
      congr 1
      omega

/-- Pairs that never beat the incoming score leave the fold unchanged. -/
theorem argmaxFold_no_improve (pairs : List (String × String × Nat))
    (b : Option (String × String)) (s : Nat) (h : ∀ q ∈ pairs, q.2.2 ≤ s) :
    argmaxFold pairs b s = (b, s) := by
  induction pairs with
  | nil => rfl
  | cons q rest ih =>
    have hq : q.2.2 ≤ s := h q (List.mem_cons_self q rest)
    simp only [argmaxFold]
    rw [if_neg (by omega)]
    exact ih (fun r hr => h r (List.mem_cons_of_mem q hr))

/-- When the best-match fold strictly improves on its seed, its best is
the first pair attaining the final maximum. -/
theorem argmaxFold_best_find (pairs : List (String × String × Nat))
    (b : Option (String × String)) (s : Nat)
    (himp : s < (argmaxFold pairs b s).2) :
    ∃ q, pairs.find? (fun r => decide ((argmaxFold pairs b s).2 ≤ r.2.2)) = some q ∧
      q.2.2 = (argmaxFold pairs b s).2 ∧
      (argmaxFold pairs b s).1 = some (q.1, q.2.1) := by
  induction pairs generalizing b s with
  | nil =>
    exfalso
    simp only [argmaxFold] at himp
    omega
  | cons q rest ih =>
    by_cases h : q.2.2 > s
    · have hfold : argmaxFold (q :: rest) b s =
          argmaxFold rest (some (q.1, q.2.1)) q.2.2 := by
        simp only [argmaxFold]
        rw [if_pos h]
      by_cases h2 : q.2.2 < (argmaxFold rest (some (q.1, q.2.1)) q.2.2).2
      · obtain ⟨r, hfind, hsc, hbest⟩ := ih (some (q.1, q.2.1)) q.2.2 h2
        refine ⟨r, ?_, by rw [hfold]; exact hsc, by rw [hfold]; exact hbest⟩
        rw [hfold]
        rw [List.find?_cons_of_neg]
        · exact hfind
        · simp only [decide_eq_true_eq]
          omega
      · have hle : q.2.2 ≤ (argmaxFold rest (some (q.1, q.2.1)) q.2.2).2 := by
          rw [argmaxFold_score]
          exact le_foldl_max _ _
        have heq : (argmaxFold rest (some (q.1, q.2.1)) q.2.2).2 = q.2.2 := by omega
        have hrest : ∀ r ∈ rest, r.2.2 ≤ q.2.2 := by
          intro r hr
          have hmem : r.2.2 ∈ rest.map (fun t => t.2.2) :=
            List.mem_map_of_mem (fun t => t.2.2) hr
          have := argmaxFold_score rest (some (q.1, q.2.1)) q.2.2
          rw [heq] at this
          exact foldl_max_eq_init _ _ this.symm r.2.2 hmem
        have hstay : argmaxFold rest (some (q.1, q.2.1)) q.2.2 =
            (some (q.1, q.2.1), q.2.2) :=
          argmaxFold_no_improve rest (some (q.1, q.2.1)) q.2.2 hrest
        refine ⟨q, ?_, ?_, ?_⟩
        · rw [hfold, hstay]
          exact List.find?_cons_of_pos rest (by simp)
        · rw [hfold, hstay]
        · rw [hfold, hstay]
    · have hfold : argmaxFold (q :: rest) b s = argmaxFold rest b s := by
        simp only [argmaxFold]
        rw [if_neg h]
      rw [hfold] at himp
      obtain ⟨r, hfind, hsc, hbest⟩ := ih b s himp
      refine ⟨r, ?_, by rw [hfold]; exact hsc, by rw [hfold]; exact hbest⟩
      rw [hfold]
      rw [List.find?_cons_of_neg]
      · exact hfind
      · simp only [decide_eq_true_eq]
        omega

/-- With no immediate name hit, the plugin loop is the best-match fold
over all scored pairs followed by the positive-score threshold. -/
theorem parseLoop_no_name (textLower text : String) (ps : List PluginInfo)
    (h : ∀ p ∈ ps, strContainsSub textLower (strToLower p.name) = false ∨
      p.capabilities = []) :
    ∀ best bestScore, parseLoop textLower text ps best bestScore =
      (match argmaxFold (pairScores textLower ps) best bestScore with
       | (some bm, s) => if s > 0 then some (bm.1, bm.2, [("text", text)]) else none
       | (none, _) => none) := by
  induction ps with
  | nil =>
    intro best bestScore
    cases best <;> rfl
  | cons p rest ih =>
    intro best bestScore
    have hps : pairScores textLower (p :: rest) =
        (p.capabilities.map (fun c => (p.name, c, capScore textLower c))) ++
          pairScores textLower rest := by
      simp [pairScores]
    have hrest := ih (fun q hq => h q (List.mem_cons_of_mem p hq))
    have hred : parseLoop textLower text (p :: rest) best bestScore =
        parseLoop textLower text rest
          (scoreFold textLower p.name p.capabilities best bestScore).1
          (scoreFold textLower p.name p.capabilities best bestScore).2 := by
      rcases h p (List.mem_cons_self p rest) with hf | hcaps
      · cases hcap : p.capabilities with
        | nil => simp only [parseLoop, hf, hcap]
        | cons d ds => simp only [parseLoop, hf, hcap]
      · cases hb : strContainsSub textLower (strToLower p.name) with
        | false => simp only [parseLoop, hb, hcaps]
        | true => simp only [parseLoop, hb, hcaps]
    rw [hred, hrest, hps, argmaxFold_append, ← scoreFold_eq_argmax]

/-- The first name-hitting plugin with a non-empty capability list makes
the loop return its first capability immediately. -/
theorem parseLoop_name_hit (textLower text : String) (pre : List PluginInfo)
    (p : PluginInfo) (post : List PluginInfo) (c : String) (cs : List String)
    (hpre : ∀ q ∈ pre, strContainsSub textLower (strToLower q.name) = false ∨
      q.capabilities = [])
    (hname : strContainsSub textLower (strToLower p.name) = true)
    (hcaps : p.capabilities = c :: cs) :
    ∀ best bestScore,
      parseLoop textLower text (pre ++ p :: post) best bestScore =
        some (p.name, c, [("text", text)]) := by
  induction pre with
  | nil =>
    intro best bestScore
    simp only [List.nil_append, parseLoop, hname, hcaps]
  | cons a pre ih =>
    intro best bestScore
    have hred : parseLoop textLower text ((a :: pre) ++ p :: post) best bestScore =
        parseLoop textLower text (pre ++ p :: post)
          (scoreFold textLower a.name a.capabilities best bestScore).1
          (scoreFold textLower a.name a.capabilities best bestScore).2 := by
      rcases hpre a (List.mem_cons_self a pre) with hf | hcaps2
      · cases hcap : a.capabilities with
        | nil =>
          simp only [List.cons_append, parseLoop, hf, hcap]
          rfl
        | cons d ds =>
          simp only [List.cons_append, parseLoop, hf, hcap]
          rfl
      · cases hb : strContainsSub textLower (strToLower a.name) with
        | false =>
          simp only [List.cons_append, parseLoop, hb, hcaps2]
          rfl
        | true =>
          simp only [List.cons_append, parseLoop, hb, hcaps2]
          rfl
    rw [hred]
    exact ih (fun q hq => hpre q (List.mem_cons_of_mem a hq)) _ _

/-- Claim C9: keyword routing resolves a verbatim (case-insensitive)
plugin-name hit to that plugin first declared capability with the text
payload; otherwise the first-seen highest-scoring (plugin, capability)
pair wins, where the score counts capability word fragments occurring in
the lowered input, and a best score of zero yields no match. -/
theorem C9_keyword_routing (plugins : List PluginInfo) (text : String) :
    (∀ pre p post c cs,
      plugins = pre ++ p :: post →
      (∀ q ∈ pre, strContainsSub (strToLower text) (strToLower q.name) = false ∨
        q.capabilities = []) →
      strContainsSub (strToLower text) (strToLower p.name) = true →
      p.capabilities = c :: cs →
      parse_with_keywords plugins text = some (p.name, c, [("text", text)])) ∧
    ((∀ q ∈ plugins, strContainsSub (strToLower text) (strToLower q.name) = false ∨
        q.capabilities = []) →
      (kwMaxScore (strToLower text) plugins = 0 →
        parse_with_keywords plugins text = none) ∧
      (0 < kwMaxScore (strToLower text) plugins →
        ∃ q, (pairScores (strToLower text) plugins).find?
            (fun r => decide (kwMaxScore (strToLower text) plugins ≤ r.2.2)) = some q ∧
          q.2.2 = kwMaxScore (strToLower text) plugins ∧
          parse_with_keywords plugins text = some (q.1, q.2.1, [("text", text)]))) := by
  constructor
  · intro pre p post c cs heq hpre hname hcaps
    show parseLoop (strToLower text) text plugins none 0 = _
    rw [heq]
    exact parseLoop_name_hit (strToLower text) text pre p post c cs hpre hname hcaps none 0
  · intro hnm
    have hM : (argmaxFold (pairScores (strToLower text) plugins) none 0).2 =
        kwMaxScore (strToLower text) plugins := by
      rw [argmaxFold_score]
      rfl
    have hparse : parse_with_keywords plugins text =
        (match argmaxFold (pairScores (strToLower text) plugins) none 0 with
         | (some bm, s) => if s > 0 then some (bm.1, bm.2, [("text", text)]) else none
         | (none, _) => none) :=
      parseLoop_no_name (strToLower text) text plugins hnm none 0
    constructor
    · intro h0
      rw [hparse]
      rcases hABeq : argmaxFold (pairScores (strToLower text) plugins) none 0 with ⟨B, M2⟩
      rw [hABeq] at hM
      simp only at hM
      cases B with
      | none => rfl
      | some bm =>
        simp only
        rw [if_neg (by omega)]
    · intro hpos
      have himp : 0 < (argmaxFold (pairScores (strToLower text) plugins) none 0).2 := by
        rw [hM]
        exact hpos
      obtain ⟨q, hfind, hsc, hbest⟩ :=
        argmaxFold_best_find (pairScores (strToLower text) plugins) none 0 himp
      rw [hM] at hfind hsc
      refine ⟨q, hfind, hsc, ?_⟩
      rw [hparse]
      rcases hABeq : argmaxFold (pairScores (strToLower text) plugins) none 0 with ⟨B, M2⟩
      rw [hABeq] at hM hbest
      simp only at hM hbest
      rw [hbest]
      simp only
      rw [if_pos (by omega)]

/-- Concrete mock-tool plugin behaviour for the routing scenario. -/
def mockToolPlugin : NaruuPlugin :=
  { name := "mock-tool", version := "1", description := ""
    capabilities := ["generate"]
    initBehavior := fun _ => .ok ()
    execBehavior := fun _ _ => .ok [("status", "ok")] }

/-- Concrete manager for the routing scenario. -/
def mockToolManager : ManagerState :=
  { plugins := [("mock-tool", mockToolPlugin)]
    statuses := [("mock-tool", .initialized)] }

/-- Closed instance of C9: the mock-tool input resolves to the mock-tool
plugin first capability generate with the text payload, and routing it
through the orchestrator succeeds. -/
theorem C9_keyword_routing_witness :
    parse_with_keywords
        [{ name := "mock-tool", version := "1", description := ""
           capabilities := ["generate"], status := .initialized }]
        "mock-tool do something" =
      some ("mock-tool", "generate", [("text", "mock-tool do something")]) ∧
    (Orchestrator.route mockToolManager "mock-tool do something").2.2.success = true := by
  constructor
  · exact (C9_keyword_routing
      [{ name := "mock-tool", version := "1", description := ""
         capabilities := ["generate"], status := .initialized }]
      "mock-tool do something").1
      [] { name := "mock-tool", version := "1", description := ""
           capabilities := ["generate"], status := .initialized }
      [] "generate" [] rfl
      (fun q hq => absurd hq (List.not_mem_nil q))
      (by decide) rfl
  · rfl

end Naruu
